import Mathlib

/-!
Shallow embedding of `src/index.js` from the
`node-typescript-prettier-eslint-template` repository.

The script is a linear pipeline of side effects: it creates a project
directory, runs `npm init -y`, rewrites `package.json`, installs
dependencies and writes a fixed set of configuration files.  We embed it
as follows:

* every side-effecting call of the script (`console.log`, `console.error`,
  `fs.mkdirSync`, `process.chdir`, `execSync`, `require` of the manifest,
  `fs.writeFileSync`) becomes an `Effect`;
* each source function becomes the list of effects its body performs, in
  source order, with the exact strings of the source;
* JSON values written with `JSON.stringify(v, null, 2)` are kept
  structured (`JValue`) together with the indent argument `2`;
* an `Env` supplies the external world: the manifest that `npm init -y`
  produced (read back by `require`) and a failure oracle telling which
  effect, if any, throws (e.g. `mkdirSync` throwing `EEXIST`);
* `runEffects`/`runSteps` execute the pipeline with JavaScript exception
  semantics: the first failing effect aborts the whole run, the effects
  already performed stay, nothing later runs;
* a small filesystem model (`FS`) interprets a trace: it tracks the
  current working directory (mutated by `process.chdir`) and maps
  resolved paths to file contents, with last-write-wins overwrites.
-/

namespace ProjectInit

/-- JSON values, used for `package.json`, `tsconfig.json` and
`.prettierrc.json`.  Objects are ordered field lists, matching the
insertion order of JavaScript objects parsed from JSON. -/
inductive JValue where
  | str (s : String)
  | num (n : Int)
  | bool (b : Bool)
  | obj (fields : List (String × JValue))
  | arr (items : List JValue)

/-- Content written to a file: either a plain string, or a JSON value
serialized by `JSON.stringify(v, null, indent)`. -/
inductive FileContent where
  | text (s : String)
  | json (v : JValue) (indent : Nat)

/-- One side effect of the script. -/
inductive Effect where
  | log (msg : String)
  | errlog (msg : String)
  | mkdir (dir : String)
  | chdir (dir : String)
  | exec (cmd : String)
  | readFile (p : String)
  | writeFile (p : String) (content : FileContent)

/-- Field lookup in an ordered JSON object (first match, as in
JavaScript property access on objects parsed from JSON). -/
def lookupField : List (String × JValue) → String → Option JValue
  | [], _ => none
  | p :: rest, k => if p.1 = k then some p.2 else lookupField rest k

/-- Whether a field named `k` occurs. -/
def hasField : List (String × JValue) → String → Bool
  | [], _ => false
  | p :: rest, k => if p.1 = k then true else hasField rest k

/-- JavaScript property assignment `o.k = v` on an object parsed from
JSON: if the key exists its value is replaced in place (keeping its
position), otherwise the key is appended at the end. -/
def setField (fields : List (String × JValue)) (k : String) (v : JValue) :
    List (String × JValue) :=
  if hasField fields k then
    fields.map (fun p => if p.1 = k then (k, v) else p)
  else
    fields ++ [(k, v)]

/-- The `scripts` object assigned by `modifyPackageJSON`
(src/index.js lines 43-50). -/
def scriptsFields : List (String × JValue) :=
  [("dev", .str "nodemon --watch src/**/*.ts --exec ts-node ./src/app.ts"),
   ("build", .str "tsc"),
   ("start", .str "node ./dist/index.js"),
   ("prestart", .str "npm run build"),
   ("lint", .str "eslint --fix --quiet src/**/*.ts"),
   ("format", .str "prettier --log-level silent --write src/**/*.ts")]

/-- The pure part of `modifyPackageJSON` (src/index.js lines 43-51):
`packageJson.scripts = {...}` then `packageJson.main = "src/index.ts"`
applied to the manifest object read back from disk. -/
def modifyManifest (m : List (String × JValue)) : List (String × JValue) :=
  setField (setField m "scripts" (.obj scriptsFields)) "main" (.str "src/index.ts")

/-- `tsconfigContent` from `createTypeScriptConfiguration`
(src/index.js lines 73-88). -/
def tsconfigFields : List (String × JValue) :=
  [("compilerOptions", .obj
      [("module", .str "commonjs"),
       ("moduleResolution", .str "node"),
       ("pretty", .bool true),
       ("resolveJsonModule", .bool true),
       ("sourceMap", .bool true),
       ("target", .str "es2021"),
       ("outDir", .str "./dist"),
       ("baseUrl", .str "./src"),
       ("experimentalDecorators", .bool true),
       ("strict", .bool true)]),
   ("include", .arr [.str "src/**/*.ts"]),
   ("exclude", .arr [.str "node_modules", .str "src/**/*.spec.ts"])]

/-- `prettierConfigContent` from `createPrettierConfig`
(src/index.js lines 141-146). -/
def prettierConfigFields : List (String × JValue) :=
  [("trailingComma", .str "all"),
   ("tabWidth", .num 2),
   ("semi", .bool true),
   ("singleQuote", .bool true)]

/-- `ignoreContent` from `createESLintConfiguration`
(src/index.js lines 96-107). -/
def eslintIgnoreContent : String :=
  "# node modules\nnode_modules\n# build path\ndist\n# environmental variables\n.env\n# yarn error log\nyarn-error.log\n# vscode config\n.vscode\n# test coverage\ncoverage"

/-- `rcContent` from `createESLintConfiguration`
(src/index.js lines 111-133). -/
def eslintRcContent : String :=
  "module.exports = \x7b\n  parser: \x27@typescript-eslint/parser\x27,\n  plugins: [\x27prettier\x27, \x27@typescript-eslint\x27],\n  parserOptions: \x7b\n    project: \x27./tsconfig.json\x27,\n    ecmaVersion: 2021,\n    sourceType: \x27module\x27,\n  \x7d,\n  extends: [\n    \x27plugin:@typescript-eslint/recommended\x27,\n    \x27plugin:prettier/recommended\x27,\n  ],\n  ignorePatterns: [\x27.eslintrc.js\x27],\n  rules: \x7b\n    \x27@typescript-eslint/array-type\x27: [\x27error\x27, \x7b default: \x27array-simple\x27 \x7d],\n    \x27@typescript-eslint/no-explicit-any\x27: [\x27off\x27],\n    \x27@typescript-eslint/no-unused-vars\x27: [\n      \x27warn\x27,\n      \x7b argsIgnorePattern: \x27^_\x27, varsIgnorePattern: \x27^_\x27 \x7d,\n    ],\n    semi: [\x27error\x27, \x27always\x27],\n  \x7d,\n\x7d;\n"

/-- `content` from `createDotEnvConfig` (src/index.js line 154). -/
def dotEnvContent : String := "DATABASE_URL=bolt://localhost:7687"

/-- The `src/index.ts` stub from `createBasicFileStructure`
(src/index.js lines 165-168). -/
def indexTsContent : String :=
  "import * as dotenv from \x27dotenv\x27;\ndotenv.config();\n\nconsole.log(\x27Hello!\x27);"

/-- `ignoreContent` from `createGitIgnoreFile`
(src/index.js lines 180-279). -/
def gitIgnoreContent : String :=
  "# See http://help.github.com/ignore-files/ for more about ignoring files.\n\n# compiled output\n/dist\n/tmp\n/out-tsc\n\n# dependencies\n/node_modules\n\n# IDEs and editors\n/.idea\n.project\n.classpath\n.c9/\n*.launch\n.settings/\n*.sublime-workspace\n\n# IDE - VSCode\n.vscode/*\n!.vscode/settings.json\n!.vscode/tasks.json\n!.vscode/launch.json\n!.vscode/extensions.json\n\n# IDE - WebStorm\n.idea\n\n# misc\n/.angular/cache\n/.sass-cache\n/connect.lock\n/coverage\n/reports\n/libpeerconnection.log\nnpm-debug.log\nyarn-error.log\ntestem.log\n/typings\nnewrelic_agent.log\n\n# System Files\n.DS_Store\nThumbs.db\n\n# Personal configuration file\n**/*/dev.env\n**/*/stage-debug.env\n**/*/stage-01-debug.env\n**/*/test.env\n**/*/test-it.env\n**/*/database.config.json\napps/local/sso-app/src/config/*.json\n\n# migration instances\n/migrations/migration-configs/commons/stage.env\n/migrations/migration-configs/commons/stage2.env\n/migrations/migration-configs/commons/prod.env\n/migrations/migration-configs/commons/ctest.env\n/migrations/migration-configs/customer/stage\n/migrations/migration-configs/customer/stage2\n/migrations/migration-configs/customer/ctest\n/migrations/migration-configs/customer/prod\n/migrations/migration-configs/stage\n/migrations/migration-configs/stage2\n/migrations/migration-configs/prod\n/migrations/migration-configs/ctest\n/migration-config/*\n\n/scripts/db-list.txt\n\n# GraphQL automatically generated schemas\n*.gql\n.graphqlconfig\n\n# Assets copied to application structure in compile phase\napps/**/*/assets/package.json\n\n# Karma test run reports\n/report.*\napps/**/*/reports/junit\n\n.angular\n\n# Storybook autogenerated documentation\ndocumentation.json\n\n# Keycloak plugins\n*.jar\n\n#Cypress downloads and misc\napps/platform/app-e2e/cypress/*\n\n# Credentials and secrets\n.env\n\n# Local database\n*.db\n**/*/*.db\n"

/-- `createProjectDirectory` (src/index.js lines 24-29):
`fs.mkdirSync(projectName)` then `process.chdir(projectName)`. -/
def createProjectDirectory (projectName : String) : List Effect :=
  [.log "Creating project directory...",
   .mkdir projectName,
   .chdir projectName]

/-- `initNPN` (src/index.js lines 31-35). -/
def initNPN : List Effect :=
  [.log "Initializing npm...",
   .exec "npm init -y"]

/-- `modifyPackageJSON` (src/index.js lines 37-54).  The manifest object
that `require(packageJsonPath)` returns is the output of the external
`npm init -y` command, so it is passed in as `packageJson`; the path
`path.join(process.cwd(), "package.json")` resolves to `package.json`
in the current working directory.  The write uses
`JSON.stringify(packageJson, null, 2)`, i.e. indent `2`. -/
def modifyPackageJSON (packageJson : List (String × JValue)) : List Effect :=
  [.log "Modifying package.json file...",
   .readFile "package.json",
   .writeFile "package.json" (.json (.obj (modifyManifest packageJson)) 2)]

/-- `installDevelopmentDependencies` (src/index.js lines 56-62); the
command string is the concatenation of the three source literals. -/
def installDevelopmentDependencies : List Effect :=
  [.log "Initializing npm dev dependencies...",
   .exec "npm install --save-dev @types/node @types/superagent @typescript-eslint/eslint-plugin @typescript-eslint/parser eslint eslint-config-prettier eslint-plugin-prettier nodemon prettier ts-node typescript typescript-eslint-parser"]

/-- `installDependencies` (src/index.js lines 64-68). -/
def installDependencies : List Effect :=
  [.log "Initializing npm dependencies...",
   .exec "npm install --save dotenv"]

/-- `createTypeScriptConfiguration` (src/index.js lines 70-91). -/
def createTypeScriptConfiguration : List Effect :=
  [.log "Creating TypeScript configuration...",
   .writeFile "tsconfig.json" (.json (.obj tsconfigFields) 2)]

/-- `createESLintConfiguration` (src/index.js lines 93-136): writes the
ignore file and then the rc file. -/
def createESLintConfiguration : List Effect :=
  [.log "Creating ESLint configuration...",
   .writeFile ".eslintignore" (.text eslintIgnoreContent),
   .writeFile ".eslintrc.js" (.text eslintRcContent)]

/-- `createPrettierConfig` (src/index.js lines 138-149). -/
def createPrettierConfig : List Effect :=
  [.log "Creating Prettier configuration...",
   .writeFile ".prettierrc.json" (.json (.obj prettierConfigFields) 2)]

/-- `createDotEnvConfig` (src/index.js lines 151-157). -/
def createDotEnvConfig : List Effect :=
  [.log "Creating .env configuration...",
   .writeFile ".env.example" (.text dotEnvContent)]

/-- `createBasicFileStructure` (src/index.js lines 159-169).  The
function takes no parameter in the source: the `projectName` it
interpolates into `README.md` is the module-level binding
(src/index.js line 284), which is passed in here as
`globalProjectName`. -/
def createBasicFileStructure (globalProjectName : String) : List Effect :=
  [.log "Creating basic file structure...",
   .exec "mkdir src",
   .writeFile "README.md" (.text ("# " ++ globalProjectName)),
   .writeFile "./src/index.ts" (.text indexTsContent)]

/-- `createReadmeFile` (src/index.js lines 171-175). -/
def createReadmeFile (projectName : String) : List Effect :=
  [.log "Creating README.md file...",
   .writeFile "README.md" (.text ("# " ++ projectName))]

/-- `createGitIgnoreFile` (src/index.js lines 177-282). -/
def createGitIgnoreFile : List Effect :=
  [.log "Creating git ignore configuration...",
   .writeFile ".gitignore" (.text gitIgnoreContent)]

/-- `createProjectStructure` (src/index.js lines 7-22), as the ordered
list of its callees' effect lists (its own `console.log` first).
`projectName` is the function's parameter; `globalProjectName` is the
module-level binding read by `createBasicFileStructure`; `packageJson`
is the manifest produced by the external `npm init -y`. -/
def createProjectStructure (globalProjectName projectName : String)
    (packageJson : List (String × JValue)) : List (List Effect) :=
  [[.log ("Creating project structure for " ++ projectName ++ "...")],
   createProjectDirectory projectName,
   initNPN,
   modifyPackageJSON packageJson,
   installDevelopmentDependencies,
   createTypeScriptConfiguration,
   createESLintConfiguration,
   createPrettierConfig,
   installDependencies,
   createDotEnvConfig,
   createBasicFileStructure globalProjectName,
   createReadmeFile projectName,
   createGitIgnoreFile]

/-- The whole straight-line script body after the argument check
(src/index.js lines 291-293): `createProjectStructure(projectName)`
called with the module-level `projectName` (so the parameter and the
global coincide), then the final success message. -/
def programSteps (projectName : String) (packageJson : List (String × JValue)) :
    List (List Effect) :=
  createProjectStructure projectName projectName packageJson
    ++ [[.log "Project initialization complete!"]]

/-- The two error kinds of the script: filesystem errors thrown by
`fs`/`process` primitives, and `execSync` failures. -/
inductive Err where
  | ioError (msg : String)
  | externalCommandError (msg : String)

/-- The external world of one run: which effect (if any) throws when
attempted, and the manifest `npm init -y` leaves on disk for
`require(packageJsonPath)` to read back. -/
structure Env where
  effectErr : Effect → Option Err
  initManifest : List (String × JValue)

/-- Execute the effects of one source function in order.  An effect
that throws is not performed: the trace keeps only the effects already
performed, and the error aborts the rest. -/
def runEffects (env : Env) : List Effect → List Effect × Option Err
  | [] => ([], none)
  | e :: rest =>
    match env.effectErr e with
    | some err => ([], some err)
    | none =>
      let r := runEffects env rest
      (e :: r.1, r.2)

/-- Execute a list of steps in order with JavaScript exception
semantics: a step that throws aborts the whole run; no later step runs,
no retry, no rollback, and the error is returned unchanged. -/
def runSteps (env : Env) : List (List Effect) → List Effect × Option Err
  | [] => ([], none)
  | s :: rest =>
    let r := runEffects env s
    match r.2 with
    | some err => (r.1, some err)
    | none =>
      let r2 := runSteps env rest
      (r.1 ++ r2.1, r2.2)

/-- Result of one invocation of the script. -/
structure RunResult where
  trace : List Effect
  err : Option Err
  exitCode : Nat

/-- The top level of the script (src/index.js lines 284-293):
`projectName = process.argv[2]`; if it is missing or empty
(JavaScript falsiness of `undefined` and `""`), print to standard
error and `process.exit(1)`; otherwise run the pipeline.  An uncaught
error terminates the process with a non-zero exit code. -/
def main (argv2 : Option String) (env : Env) : RunResult :=
  match argv2 with
  | none => { trace := [.errlog "Please provide a project name."], err := none, exitCode := 1 }
  | some pn =>
    if pn = "" then
      { trace := [.errlog "Please provide a project name."], err := none, exitCode := 1 }
    else
      match runSteps env (programSteps pn env.initManifest) with
      | (tr, none) => { trace := tr, err := none, exitCode := 0 }
      | (tr, some e) => { trace := tr, err := some e, exitCode := 1 }

/-- Strip a leading `./` from a relative path (the OS treats
`./src/index.ts` and `src/index.ts` as the same name). -/
def stripDotSlash (p : String) : String :=
  match p.data with
  | '.' :: '/' :: rest => String.mk rest
  | _ => p

/-- Resolve a path against the current working directory. -/
def resolve (cwd p : String) : String :=
  if cwd = "" then stripDotSlash p else cwd ++ "/" ++ stripDotSlash p

/-- Overwrite the file map at one resolved path (last write wins, full
replacement, as `fs.writeFileSync` does). -/
def setFileFn (f : String → Option FileContent) (k : String) (c : FileContent) :
    String → Option FileContent :=
  fun x => if x = k then some c else f x

/-- Record a directory as existing. -/
def setDirFn (d : String → Bool) (k : String) : String → Bool :=
  fun x => if x = k then true else d x

/-- Filesystem model: current working directory, existing directories,
and file contents keyed by resolved path. -/
structure FS where
  cwd : String
  dirs : String → Bool
  files : String → Option FileContent

/-- The empty filesystem, with the invoking directory as root. -/
def initialFS : FS :=
  { cwd := "", dirs := fun _ => false, files := fun _ => none }

/-- Interpret one performed effect on the filesystem.  Console output
and reads do not mutate it; what external commands (`execSync`) do to
the disk is outside the model. -/
def applyEffect (fs : FS) : Effect → FS
  | .log _ => fs
  | .errlog _ => fs
  | .mkdir d => { fs with dirs := setDirFn fs.dirs (resolve fs.cwd d) }
  | .chdir d => { fs with cwd := resolve fs.cwd d }
  | .exec _ => fs
  | .readFile _ => fs
  | .writeFile p c => { fs with files := setFileFn fs.files (resolve fs.cwd p) c }

/-- Interpret a trace. -/
def applyEffects (fs : FS) (es : List Effect) : FS :=
  es.foldl applyEffect fs

/-- The writes of an effect list, as (path, content) pairs. -/
def writeList (es : List Effect) : List (String × FileContent) :=
  es.filterMap (fun e =>
    match e with
    | .writeFile p c => some (p, c)
    | _ => none)

/-- The paths of the writes of an effect list. -/
def writePaths (es : List Effect) : List String :=
  (writeList es).map (fun q => q.1)

/-- Effects that touch the filesystem: directory creation, file writes,
and external commands (which may write, e.g. `npm init`). -/
def mutatesFs : Effect → Bool
  | .mkdir _ => true
  | .writeFile _ _ => true
  | .exec _ => true
  | _ => false

/-- Effects that invoke an external command. -/
def isExternalCommand : Effect → Bool
  | .exec _ => true
  | _ => false

/-- Whether a (normalized) path lies under `src/`. -/
def underSrc (p : String) : Bool :=
  match p.data with
  | 's' :: 'r' :: 'c' :: '/' :: _ => true
  | _ => false

/-! ## Generic lemmas about the runner -/

theorem runEffects_ok (env : Env) :
    ∀ (es tr : List Effect), runEffects env es = (tr, none) → tr = es := by
  intro es
  induction es with
  | nil =>
    intro tr h
    simp only [runEffects, Prod.mk.injEq] at h
    exact h.1.symm
  | cons e rest ih =>
    intro tr h
    rw [runEffects] at h
    cases hc : env.effectErr e with
    | some err => rw [hc] at h; simp at h
    | none =>
      rw [hc] at h
      simp only [Prod.mk.injEq] at h
      have h2 : runEffects env rest = ((runEffects env rest).1, none) := by
        rw [← h.2]
      have := ih _ h2
      rw [← h.1, this]

theorem runEffects_split (env : Env) :
    ∀ (es tr : List Effect) (r : Option Err),
      runEffects env es = (tr, r) → ∃ rest, es = tr ++ rest := by
  intro es
  induction es with
  | nil =>
    intro tr r h
    simp only [runEffects, Prod.mk.injEq] at h
    exact ⟨[], by simp [← h.1]⟩
  | cons e rest ih =>
    intro tr r h
    rw [runEffects] at h
    cases hc : env.effectErr e with
    | some err =>
      rw [hc] at h
      simp only [Prod.mk.injEq] at h
      exact ⟨e :: rest, by simp [← h.1]⟩
    | none =>
      rw [hc] at h
      simp only [Prod.mk.injEq] at h
      obtain ⟨q, hq⟩ := ih (runEffects env rest).1 (runEffects env rest).2 rfl
      exact ⟨q, by rw [← h.1, List.cons_append, ← hq]⟩

theorem runSteps_ok (env : Env) :
    ∀ (ss : List (List Effect)) (tr : List Effect),
      runSteps env ss = (tr, none) → tr = ss.flatten := by
  intro ss
  induction ss with
  | nil =>
    intro tr h
    simp only [runSteps, Prod.mk.injEq] at h
    simp [← h.1]
  | cons s rest ih =>
    intro tr h
    rw [runSteps] at h
    cases hc : (runEffects env s).2 with
    | some err => rw [hc] at h; simp at h
    | none =>
      rw [hc] at h
      simp only [Prod.mk.injEq] at h
      have hs : runEffects env s = ((runEffects env s).1, none) := by rw [← hc]
      have h1 := runEffects_ok env s (runEffects env s).1 hs
      have h2 : runSteps env rest = ((runSteps env rest).1, none) := by rw [← h.2]
      have h3 := ih _ h2
      rw [← h.1, h1, h3, List.flatten_cons]

theorem runSteps_split (env : Env) :
    ∀ (ss : List (List Effect)) (tr : List Effect) (r : Option Err),
      runSteps env ss = (tr, r) → ∃ rest, ss.flatten = tr ++ rest := by
  intro ss
  induction ss with
  | nil =>
    intro tr r h
    simp only [runSteps, Prod.mk.injEq] at h
    exact ⟨[], by simp [← h.1]⟩
  | cons s rest ih =>
    intro tr r h
    rw [runSteps] at h
    cases hc : (runEffects env s).2 with
    | some err =>
      rw [hc] at h
      simp only [Prod.mk.injEq] at h
      obtain ⟨q, hq⟩ := runEffects_split env s (runEffects env s).1 (runEffects env s).2 rfl
      refine ⟨q ++ rest.flatten, ?_⟩
      rw [List.flatten_cons, hq, ← h.1]
      simp
    | none =>
      rw [hc] at h
      simp only [Prod.mk.injEq] at h
      have hs : runEffects env s = ((runEffects env s).1, none) := by rw [← hc]
      have h1 := runEffects_ok env s (runEffects env s).1 hs
      obtain ⟨q, hq⟩ := ih (runSteps env rest).1 (runSteps env rest).2 rfl
      refine ⟨q, ?_⟩
      rw [List.flatten_cons, ← h.1, h1, hq]
      simp

theorem runSteps_append_err (env : Env) :
    ∀ (s1 s2 : List (List Effect)) (tr : List Effect) (e : Err),
      runSteps env s1 = (tr, some e) → runSteps env (s1 ++ s2) = (tr, some e) := by
  intro s1
  induction s1 with
  | nil => intro s2 tr e h; simp [runSteps] at h
  | cons s rest ih =>
    intro s2 tr e h
    rw [runSteps] at h
    rw [List.cons_append, runSteps]
    cases hc : (runEffects env s).2 with
    | some err =>
      rw [hc] at h
      exact h
    | none =>
      rw [hc] at h
      simp only [Prod.mk.injEq] at h
      have h2 : runSteps env rest = ((runSteps env rest).1, some e) := by rw [← h.2]
      have h3 := ih s2 (runSteps env rest).1 e h2
      rw [h3, ← h.1]

/-! ## Lemmas about manifest field assignment -/

theorem lookupField_map_set (k : String) (v : JValue) :
    ∀ (m : List (String × JValue)), hasField m k = true →
      lookupField (m.map (fun p => if p.1 = k then (k, v) else p)) k = some v := by
  intro m
  induction m with
  | nil => intro h; simp [hasField] at h
  | cons p rest ih =>
    intro h
    by_cases hp : p.1 = k
    · simp [lookupField, hp]
    · rw [hasField, if_neg hp] at h
      simp [lookupField, hp, ih h]

theorem lookupField_append_self (k : String) (v : JValue) :
    ∀ (m : List (String × JValue)), hasField m k = false →
      lookupField (m ++ [(k, v)]) k = some v := by
  intro m
  induction m with
  | nil => intro _; simp [lookupField]
  | cons p rest ih =>
    intro h
    rw [hasField] at h
    by_cases hp : p.1 = k
    · rw [if_pos hp] at h; simp at h
    · rw [if_neg hp] at h
      simp [lookupField, hp, ih h]

theorem lookupField_setField_self (m : List (String × JValue)) (k : String) (v : JValue) :
    lookupField (setField m k v) k = some v := by
  rw [setField]
  by_cases h : hasField m k = true
  · rw [if_pos h]; exact lookupField_map_set k v m h
  · rw [if_neg h]
    exact lookupField_append_self k v m (by simpa using h)

theorem lookupField_setField_ne (m : List (String × JValue)) (k : String) (v : JValue)
    (k' : String) (h : k' ≠ k) :
    lookupField (setField m k v) k' = lookupField m k' := by
  rw [setField]
  by_cases hm : hasField m k = true
  · rw [if_pos hm]
    clear hm
    induction m with
    | nil => rfl
    | cons p rest ih =>
      by_cases hp : p.1 = k
      · have hk : ¬(k = k') := fun hh => h hh.symm
        simp [lookupField, hp, hk, ih]
      · by_cases hp' : p.1 = k'
        · simp [lookupField, hp, hp', h]
        · simp [lookupField, hp, hp', h, ih]
  · rw [if_neg hm]
    clear hm
    induction m with
    | nil => simp [lookupField, Ne.symm h]
    | cons p rest ih =>
      by_cases hp' : p.1 = k'
      · simp [lookupField, hp']
      · simp [lookupField, hp', ih]

theorem filter_map_set (k : String) (v : JValue) (q : String × JValue → Bool)
    (hq : ∀ w, q (k, w) = false) :
    ∀ (m : List (String × JValue)),
      (m.map (fun p => if p.1 = k then (k, v) else p)).filter q = m.filter q := by
  intro m
  induction m with
  | nil => rfl
  | cons p rest ih =>
    by_cases hp : p.1 = k
    · have h2 : q p = false := by
        have : p = (k, p.2) := by rw [← hp]
        rw [this]; exact hq p.2
      simp [List.filter, hp, hq v, h2, ih]
    · simp [List.filter, hp, ih]

theorem filter_setField (m : List (String × JValue)) (k : String) (v : JValue)
    (q : String × JValue → Bool) (hq : ∀ w, q (k, w) = false) :
    (setField m k v).filter q = m.filter q := by
  rw [setField]
  by_cases hm : hasField m k = true
  · rw [if_pos hm]; exact filter_map_set k v q hq m
  · rw [if_neg hm, List.filter_append]
    simp [hq v]

theorem modifyManifest_main (m : List (String × JValue)) :
    lookupField (modifyManifest m) "main" = some (.str "src/index.ts") :=
  lookupField_setField_self _ _ _

theorem modifyManifest_scripts (m : List (String × JValue)) :
    lookupField (modifyManifest m) "scripts" = some (.obj scriptsFields) := by
  rw [modifyManifest, lookupField_setField_ne _ _ _ _ (by decide)]
  exact lookupField_setField_self _ _ _

/-! ## Path and filesystem lemmas -/

theorem string_append_left_cancel (a b c : String) (h : a ++ b = a ++ c) : b = c := by
  have hd := congrArg String.data h
  rw [String.data_append, String.data_append] at hd
  have hbc := List.append_cancel_left hd
  cases b
  cases c
  cases hbc
  rfl

theorem resolve_ne (cwd : String) {a b : String}
    (h : stripDotSlash a ≠ stripDotSlash b) : resolve cwd a ≠ resolve cwd b := by
  intro he
  rw [resolve, resolve] at he
  by_cases hc : cwd = ""
  · rw [if_pos hc, if_pos hc] at he
    exact h he
  · rw [if_neg hc, if_neg hc] at he
    exact h (string_append_left_cancel _ _ _ he)

theorem setFileFn_eq (f : String → Option FileContent) (k : String) (c : FileContent) :
    setFileFn f k c k = some c := by
  simp [setFileFn]

theorem setFileFn_ne (f : String → Option FileContent) (k : String) (c : FileContent)
    (x : String) (h : x ≠ k) : setFileFn f k c x = f x := by
  simp [setFileFn, h]

/-- The files function after performing a sequence of writes, all from
the same working directory. -/
def writesAfter (f : String → Option FileContent) (cwd : String) :
    List (String × FileContent) → (String → Option FileContent)
  | [] => f
  | (p, c) :: rest => writesAfter (setFileFn f (resolve cwd p) c) cwd rest

/-- The write sequence of a complete run, in source order. -/
def finalWriteSeq (pn : String) (m : List (String × JValue)) :
    List (String × FileContent) :=
  [("package.json", .json (.obj (modifyManifest m)) 2),
   ("tsconfig.json", .json (.obj tsconfigFields) 2),
   (".eslintignore", .text eslintIgnoreContent),
   (".eslintrc.js", .text eslintRcContent),
   (".prettierrc.json", .json (.obj prettierConfigFields) 2),
   (".env.example", .text dotEnvContent),
   ("README.md", .text ("# " ++ pn)),
   ("./src/index.ts", .text indexTsContent),
   ("README.md", .text ("# " ++ pn)),
   (".gitignore", .text gitIgnoreContent)]

/-- Closed form of the filesystem after a complete run: the project
directory was created in the invoking directory, the working directory
moved into it, and the ten writes of the pipeline were performed
there. -/
theorem final_fs_eq (pn : String) (m : List (String × JValue)) :
    applyEffects initialFS ((programSteps pn m).flatten) =
      { cwd := resolve "" pn,
        dirs := setDirFn (fun _ => false) (resolve "" pn),
        files := writesAfter (fun _ => none) (resolve "" pn) (finalWriteSeq pn m) } := rfl

theorem final_files_packageJson (pn : String) (m : List (String × JValue)) :
    (applyEffects initialFS ((programSteps pn m).flatten)).files
        (resolve (resolve "" pn) "package.json")
      = some (.json (.obj (modifyManifest m)) 2) := by
  rw [final_fs_eq]
  show writesAfter (fun _ => none) (resolve "" pn) (finalWriteSeq pn m)
      (resolve (resolve "" pn) "package.json") = _
  rw [finalWriteSeq]
  simp only [writesAfter]
  rw [setFileFn_ne _ _ _ _ (resolve_ne _ (by decide)),
    setFileFn_ne _ _ _ _ (resolve_ne _ (by decide)),
    setFileFn_ne _ _ _ _ (resolve_ne _ (by decide)),
    setFileFn_ne _ _ _ _ (resolve_ne _ (by decide)),
    setFileFn_ne _ _ _ _ (resolve_ne _ (by decide)),
    setFileFn_ne _ _ _ _ (resolve_ne _ (by decide)),
    setFileFn_ne _ _ _ _ (resolve_ne _ (by decide)),
    setFileFn_ne _ _ _ _ (resolve_ne _ (by decide)),
    setFileFn_ne _ _ _ _ (resolve_ne _ (by decide)),
    setFileFn_eq]

theorem final_files_readme (pn : String) (m : List (String × JValue)) :
    (applyEffects initialFS ((programSteps pn m).flatten)).files
        (resolve (resolve "" pn) "README.md")
      = some (.text ("# " ++ pn)) := by
  rw [final_fs_eq]
  show writesAfter (fun _ => none) (resolve "" pn) (finalWriteSeq pn m)
      (resolve (resolve "" pn) "README.md") = _
  rw [finalWriteSeq]
  simp only [writesAfter]
  rw [setFileFn_ne _ _ _ _ (resolve_ne _ (by decide)), setFileFn_eq]

/-- A completed run reduces to the full straight-line effect list. -/
theorem main_trace_of_ok (env : Env) (pn : String) (hpn : ¬pn = "")
    (hok : (main (some pn) env).err = none) :
    (main (some pn) env).trace = (programSteps pn env.initManifest).flatten := by
  rw [main] at hok ⊢
  rw [if_neg hpn] at hok ⊢
  cases hr : runSteps env (programSteps pn env.initManifest) with
  | mk tr r =>
    cases r with
    | none => exact runSteps_ok env _ _ hr
    | some e =>
      rw [hr] at hok
      exact Option.noConfusion hok

/-! ## Concrete environments used by the witnesses -/

/-- A plausible manifest produced by the external `npm init -y` in a
directory named `demo`. -/
def sampleManifest : List (String × JValue) :=
  [("name", .str "demo"),
   ("version", .str "1.0.0"),
   ("description", .str ""),
   ("main", .str "index.js"),
   ("scripts", .obj [("test", .str "echo \"Error: no test specified\" && exit 1")]),
   ("keywords", .arr []),
   ("author", .str ""),
   ("license", .str "ISC")]

/-- A world in which every effect succeeds. -/
def cleanEnv : Env :=
  { effectErr := fun _ => none, initManifest := sampleManifest }

/-- A world in which a directory named `demo` already exists, so
`fs.mkdirSync("demo")` throws `EEXIST`. -/
def mkdirFailEnv : Env :=
  { effectErr := fun e =>
      match e with
      | .mkdir d => if d = "demo" then some (.ioError "EEXIST: file already exists, mkdir") else none
      | _ => none,
    initManifest := sampleManifest }

/-- A world in which `npm init -y` exits non-zero. -/
def initFailEnv : Env :=
  { effectErr := fun e =>
      match e with
      | .exec c => if c = "npm init -y" then some (.externalCommandError "npm init -y") else none
      | _ => none,
    initManifest := sampleManifest }

/-! ## Claims -/

/-- Claim C1: for every run of the initializer that completes, the
resulting `package.json` has its `main` field equal to exactly
`"src/index.ts"` and its `scripts` mapping equal to exactly the six
fixed entries `dev`, `build`, `start`, `prestart`, `lint`, `format`
with their hardcoded command strings, independent of the input project
name. -/
theorem packageJson_main_and_scripts_fixed (env : Env) (pn : String)
    (hpn : ¬pn = "") (hok : (main (some pn) env).err = none) :
    (applyEffects initialFS (main (some pn) env).trace).files
        (resolve (resolve "" pn) "package.json")
      = some (.json (.obj (modifyManifest env.initManifest)) 2)
    ∧ lookupField (modifyManifest env.initManifest) "main" = some (.str "src/index.ts")
    ∧ lookupField (modifyManifest env.initManifest) "scripts" = some (.obj
        [("dev", .str "nodemon --watch src/**/*.ts --exec ts-node ./src/app.ts"),
         ("build", .str "tsc"),
         ("start", .str "node ./dist/index.js"),
         ("prestart", .str "npm run build"),
         ("lint", .str "eslint --fix --quiet src/**/*.ts"),
         ("format", .str "prettier --log-level silent --write src/**/*.ts")]) := by
  refine ⟨?_, modifyManifest_main _, modifyManifest_scripts _⟩
  rw [main_trace_of_ok env pn hpn hok]
  exact final_files_packageJson pn env.initManifest

/-- Witness for C1: project name `demo` with a concrete world in which
the run completes. -/
theorem packageJson_main_and_scripts_fixed_witness :
    (¬("demo" : String) = "") ∧ (main (some "demo") cleanEnv).err = none ∧
      (applyEffects initialFS (main (some "demo") cleanEnv).trace).files
          (resolve (resolve "" "demo") "package.json")
        = some (.json (.obj (modifyManifest cleanEnv.initManifest)) 2) :=
  ⟨by decide, rfl, (packageJson_main_and_scripts_fixed cleanEnv "demo" (by decide) rfl).1⟩

/-- Claim C2: for every non-empty project name `N`, after the
initializer completes, the content of `README.md` in the new project
directory is exactly `"# "` concatenated with `N`, with no trailing
characters added. -/
theorem readme_content_exact (env : Env) (pn : String) (hpn : ¬pn = "")
    (hok : (main (some pn) env).err = none) :
    (applyEffects initialFS (main (some pn) env).trace).files
        (resolve (resolve "" pn) "README.md")
      = some (.text ("# " ++ pn)) := by
  rw [main_trace_of_ok env pn hpn hok]
  exact final_files_readme pn env.initManifest

/-- Witness for C2 at project name `demo`. -/
theorem readme_content_exact_witness :
    (¬("demo" : String) = "") ∧ (main (some "demo") cleanEnv).err = none ∧
      (applyEffects initialFS (main (some "demo") cleanEnv).trace).files
          (resolve (resolve "" "demo") "README.md")
        = some (.text ("# " ++ "demo")) :=
  ⟨by decide, rfl, readme_content_exact cleanEnv "demo" (by decide) rfl⟩

/-- Claim C3: the manifest-mutation step leaves every field of the
manifest produced by `npm init -y` unchanged except `scripts` and
`main` — no other field is dropped, altered, or reordered — and writes
the manifest back as indented (indent 2), human-readable JSON in its
single file write. -/
theorem modifyPackageJSON_preserves_other_fields (m : List (String × JValue)) (k : String)
    (h1 : ¬k = "scripts") (h2 : ¬k = "main") :
    lookupField (modifyManifest m) k = lookupField m k
    ∧ (modifyManifest m).filter (fun p => !(p.1 == "scripts" || p.1 == "main"))
        = m.filter (fun p => !(p.1 == "scripts" || p.1 == "main"))
    ∧ writeList (modifyPackageJSON m) = [("package.json", .json (.obj (modifyManifest m)) 2)] := by
  have hqs : ∀ w : JValue,
      (fun p : String × JValue => !(p.1 == "scripts" || p.1 == "main")) ("scripts", w) = false := by
    intro w; simp
  have hqm : ∀ w : JValue,
      (fun p : String × JValue => !(p.1 == "scripts" || p.1 == "main")) ("main", w) = false := by
    intro w; simp
  refine ⟨?_, ?_, rfl⟩
  · rw [modifyManifest, lookupField_setField_ne _ _ _ _ h2, lookupField_setField_ne _ _ _ _ h1]
  · rw [modifyManifest, filter_setField _ _ _ _ hqm, filter_setField _ _ _ _ hqs]

/-- Witness for C3 at the field `version` of a concrete manifest. -/
theorem modifyPackageJSON_preserves_other_fields_witness :
    (¬("version" : String) = "scripts") ∧ (¬("version" : String) = "main") ∧
      (lookupField (modifyManifest sampleManifest) "version" = lookupField sampleManifest "version"
       ∧ (modifyManifest sampleManifest).filter (fun p => !(p.1 == "scripts" || p.1 == "main"))
           = sampleManifest.filter (fun p => !(p.1 == "scripts" || p.1 == "main"))
       ∧ writeList (modifyPackageJSON sampleManifest)
           = [("package.json", .json (.obj (modifyManifest sampleManifest)) 2)]) :=
  ⟨by decide, by decide,
    modifyPackageJSON_preserves_other_fields sampleManifest "version" (by decide) (by decide)⟩

/-- Claim C4: for every invocation where the project-name argument is
missing or empty, the program performs no filesystem mutation and no
external command invocation, writes a message to standard error, and
exits with status 1. -/
theorem missing_name_no_mutation (env : Env) (a : Option String)
    (h : a = none ∨ a = some "") :
    main a env = { trace := [.errlog "Please provide a project name."], err := none, exitCode := 1 }
    ∧ (main a env).trace.all (fun e => !(mutatesFs e)) = true := by
  rcases h with h | h <;> subst h <;> exact ⟨rfl, rfl⟩

/-- Witness for C4 at the empty-string argument. -/
theorem missing_name_no_mutation_witness :
    ((some "" : Option String) = none ∨ (some "" : Option String) = some "")
    ∧ main (some "") cleanEnv
        = { trace := [.errlog "Please provide a project name."], err := none, exitCode := 1 } :=
  ⟨Or.inr rfl, (missing_name_no_mutation cleanEnv (some "") (Or.inr rfl)).1⟩

/-- Claim C5: directory creation is the first effect touching the
filesystem in every run, and in a world where the directory already
exists (so `fs.mkdirSync` throws), the run fails with that IOError and
no external (package-manager) command is ever invoked. -/
theorem mkdir_is_first_fs_effect :
    (∀ (env : Env) (pn : String), ¬pn = "" →
      ((main (some pn) env).trace.filter mutatesFs).head? = some (.mkdir pn)
      ∨ (main (some pn) env).trace.filter mutatesFs = [])
    ∧ (∀ (env : Env) (pn : String) (e : Err), ¬pn = "" →
        env.effectErr (.mkdir pn) = some e →
        env.effectErr (.log ("Creating project structure for " ++ pn ++ "...")) = none →
        env.effectErr (.log "Creating project directory...") = none →
        (main (some pn) env).err = some e
        ∧ (main (some pn) env).exitCode = 1
        ∧ (main (some pn) env).trace.all (fun eff => !(isExternalCommand eff)) = true) := by
  constructor
  · intro env pn hpn
    rw [main, if_neg hpn]
    cases hr : runSteps env (programSteps pn env.initManifest) with
    | mk tr r =>
      obtain ⟨rest, hsplit⟩ := runSteps_split env _ tr r hr
      obtain ⟨L, hL⟩ : ∃ L, ((programSteps pn env.initManifest).flatten).filter mutatesFs
          = .mkdir pn :: L := ⟨_, rfl⟩
      rw [hsplit, List.filter_append] at hL
      have goal2 : (tr.filter mutatesFs).head? = some (.mkdir pn)
          ∨ tr.filter mutatesFs = [] := by
        cases htr : tr.filter mutatesFs with
        | nil => exact Or.inr rfl
        | cons x xs =>
          rw [htr, List.cons_append] at hL
          injection hL with hx _
          rw [hx]
          exact Or.inl rfl
      cases r with
      | none => exact goal2
      | some e => exact goal2
  · intro env pn e hpn hmk hl1 hl2
    have h1 : runEffects env [Effect.log ("Creating project structure for " ++ pn ++ "...")]
        = ([.log ("Creating project structure for " ++ pn ++ "...")], none) := by
      simp [runEffects, hl1]
    have h2 : runEffects env (createProjectDirectory pn)
        = ([.log "Creating project directory..."], some e) := by
      rw [createProjectDirectory]
      simp [runEffects, hl2, hmk]
    have hrun : runSteps env (programSteps pn env.initManifest)
        = ([.log ("Creating project structure for " ++ pn ++ "..."),
            .log "Creating project directory..."], some e) := by
      rw [programSteps, createProjectStructure]
      simp only [List.cons_append]
      simp [runSteps, h1, h2]
    rw [main, if_neg hpn, hrun]
    exact ⟨rfl, rfl, rfl⟩

/-- Witness for C5: the success scenario at `demo`, and the
directory-already-exists scenario at `demo`. -/
theorem mkdir_is_first_fs_effect_witness :
    (((main (some "demo") cleanEnv).trace.filter mutatesFs).head? = some (.mkdir "demo")
      ∨ (main (some "demo") cleanEnv).trace.filter mutatesFs = [])
    ∧ mkdirFailEnv.effectErr (.mkdir "demo") = some (.ioError "EEXIST: file already exists, mkdir")
    ∧ ((main (some "demo") mkdirFailEnv).err
          = some (.ioError "EEXIST: file already exists, mkdir")
       ∧ (main (some "demo") mkdirFailEnv).exitCode = 1
       ∧ (main (some "demo") mkdirFailEnv).trace.all (fun eff => !(isExternalCommand eff)) = true) :=
  ⟨mkdir_is_first_fs_effect.1 cleanEnv "demo" (by decide), rfl,
   mkdir_is_first_fs_effect.2 mkdirFailEnv "demo" _ (by decide) rfl rfl rfl⟩

/-- Claim C7: if any step of the fixed sequence raises an error, no
subsequent step executes, nothing is retried or skipped, and the error
propagates unmodified: a run of the full step list returns exactly the
trace and error of its failing prefix. -/
theorem step_error_stops_run (env : Env) (pn : String) (m : List (String × JValue))
    (k : Nat) (tr : List Effect) (e : Err)
    (h : runSteps env ((programSteps pn m).take k) = (tr, some e)) :
    runSteps env (programSteps pn m) = (tr, some e) := by
  have h2 := runSteps_append_err env ((programSteps pn m).take k)
    ((programSteps pn m).drop k) tr e h
  rwa [List.take_append_drop] at h2

/-- Witness for C7: a world where `npm init -y` fails; the first three
steps produce the same trace and error as the whole run. -/
theorem step_error_stops_run_witness :
    runSteps initFailEnv ((programSteps "demo" sampleManifest).take 3)
        = ([.log "Creating project structure for demo...", .log "Creating project directory...",
            .mkdir "demo", .chdir "demo", .log "Initializing npm..."],
           some (.externalCommandError "npm init -y"))
    ∧ runSteps initFailEnv (programSteps "demo" sampleManifest)
        = ([.log "Creating project structure for demo...", .log "Creating project directory...",
            .mkdir "demo", .chdir "demo", .log "Initializing npm..."],
           some (.externalCommandError "npm init -y")) :=
  ⟨rfl, step_error_stops_run initFailEnv "demo" sampleManifest 3 _ _ rfl⟩

/-- Counterexample to C6 as stated: the linter-configuration step
(`createESLintConfiguration`) writes two files, `.eslintignore` and
`.eslintrc.js`, not exactly one file. -/
theorem eslint_step_writes_two_files :
    writePaths createESLintConfiguration = [".eslintignore", ".eslintrc.js"]
    ∧ ¬(writePaths createESLintConfiguration).length = 1 :=
  ⟨rfl, by decide⟩

/-- Claim C6 (amended): each file-writing step writes a fixed list of
files — one file for the compiler-config, formatter-config,
env-template, README and version-control-ignore steps, two files for
the linter step (`.eslintignore` and `.eslintrc.js`) and two for the
source-seeding step (the placeholder README and `src/index.ts`) — and
every content is a fixed template string except the README writes,
whose content is `"# "` concatenated with the project name. -/
theorem files_written_per_step (pn : String) :
    writeList createTypeScriptConfiguration = [("tsconfig.json", .json (.obj tsconfigFields) 2)]
    ∧ writeList createESLintConfiguration
        = [(".eslintignore", .text eslintIgnoreContent), (".eslintrc.js", .text eslintRcContent)]
    ∧ writeList createPrettierConfig = [(".prettierrc.json", .json (.obj prettierConfigFields) 2)]
    ∧ writeList createDotEnvConfig = [(".env.example", .text dotEnvContent)]
    ∧ writeList (createBasicFileStructure pn)
        = [("README.md", .text ("# " ++ pn)), ("./src/index.ts", .text indexTsContent)]
    ∧ writeList (createReadmeFile pn) = [("README.md", .text ("# " ++ pn))]
    ∧ writeList createGitIgnoreFile = [(".gitignore", .text gitIgnoreContent)] :=
  ⟨rfl, rfl, rfl, rfl, rfl, rfl, rfl⟩

/-- Claim C8: for the input `demo`, a completed run produces a
directory `demo/` whose `package.json` has `main` equal to
`src/index.ts`, whose `tsconfig.json` sets `strict` to `true`, whose
`src/index.ts` contains the literal text `Hello!`, and whose
`README.md` contains exactly `# demo`. -/
theorem demo_end_to_end (env : Env)
    (hok : (main (some "demo") env).err = none) :
    (applyEffects initialFS (main (some "demo") env).trace).dirs "demo" = true
    ∧ (applyEffects initialFS (main (some "demo") env).trace).files "demo/package.json"
        = some (.json (.obj (modifyManifest env.initManifest)) 2)
    ∧ lookupField (modifyManifest env.initManifest) "main" = some (.str "src/index.ts")
    ∧ (applyEffects initialFS (main (some "demo") env).trace).files "demo/tsconfig.json"
        = some (.json (.obj tsconfigFields) 2)
    ∧ (∃ co, lookupField tsconfigFields "compilerOptions" = some (.obj co)
        ∧ lookupField co "strict" = some (.bool true))
    ∧ (∃ a b, (applyEffects initialFS (main (some "demo") env).trace).files "demo/src/index.ts"
        = some (.text (a ++ "Hello!" ++ b)))
    ∧ (applyEffects initialFS (main (some "demo") env).trace).files "demo/README.md"
        = some (.text "# demo") := by
  have htr := main_trace_of_ok env "demo" (by decide) hok
  rw [htr]
  refine ⟨rfl, rfl, modifyManifest_main _, rfl, ⟨_, rfl, rfl⟩,
    ⟨"import * as dotenv from \x27dotenv\x27;\ndotenv.config();\n\nconsole.log(\x27", "\x27);", rfl⟩,
    rfl⟩

/-- Witness for C8: a concrete world in which the `demo` run
completes. -/
theorem demo_end_to_end_witness :
    (main (some "demo") cleanEnv).err = none
    ∧ (applyEffects initialFS (main (some "demo") cleanEnv).trace).files "demo/README.md"
        = some (.text "# demo") :=
  ⟨rfl, (demo_end_to_end cleanEnv rfl).2.2.2.2.2.2⟩

/-- Claim C9: for every non-empty project name, the README written by
the source-seeding step (which reads the module-level `projectName`
binding) is already identical to the one written by the README step —
both are `"# "` concatenated with the name — so the later overwrite
leaves the filesystem entirely unchanged. -/
theorem readme_rewrite_is_noop (pn : String) (fs : FS) (hpn : ¬pn = "") :
    (writeList (createBasicFileStructure pn)).head? = some ("README.md", .text ("# " ++ pn))
    ∧ writeList (createReadmeFile pn) = [("README.md", .text ("# " ++ pn))]
    ∧ applyEffects (applyEffects fs (createBasicFileStructure pn)) (createReadmeFile pn)
        = applyEffects fs (createBasicFileStructure pn) := by
  refine ⟨rfl, rfl, ?_⟩
  have hne : resolve fs.cwd "README.md" ≠ resolve fs.cwd "./src/index.ts" :=
    resolve_ne _ (by decide)
  have hfiles : setFileFn (setFileFn (setFileFn fs.files (resolve fs.cwd "README.md")
        (.text ("# " ++ pn))) (resolve fs.cwd "./src/index.ts") (.text indexTsContent))
        (resolve fs.cwd "README.md") (.text ("# " ++ pn))
      = setFileFn (setFileFn fs.files (resolve fs.cwd "README.md") (.text ("# " ++ pn)))
        (resolve fs.cwd "./src/index.ts") (.text indexTsContent) := by
    funext x
    by_cases hx : x = resolve fs.cwd "README.md"
    · subst hx
      rw [setFileFn_eq, setFileFn_ne _ _ _ _ hne, setFileFn_eq]
    · rw [setFileFn_ne _ _ _ _ hx]
  exact congrArg (fun F => { fs with files := F }) hfiles

/-- Witness for C9 at project name `demo` on the empty filesystem. -/
theorem readme_rewrite_is_noop_witness :
    (¬("demo" : String) = "")
    ∧ applyEffects (applyEffects initialFS (createBasicFileStructure "demo"))
          (createReadmeFile "demo")
        = applyEffects initialFS (createBasicFileStructure "demo") :=
  ⟨by decide, (readme_rewrite_is_noop "demo" initialFS (by decide)).2.2⟩

/-- Claim C10: the generated `dev` script references the path
`./src/app.ts`, while the only source file any step writes under
`src/` is `src/index.ts`; no step of any run ever writes a file named
`src/app.ts`. -/
theorem dev_script_points_to_missing_app_ts (pn : String) (m : List (String × JValue)) :
    lookupField scriptsFields "dev"
        = some (.str ("nodemon --watch src/**/*.ts --exec ts-node " ++ "./src/app.ts"))
    ∧ (writePaths ((programSteps pn m).flatten)).map stripDotSlash
        = ["package.json", "tsconfig.json", ".eslintignore", ".eslintrc.js", ".prettierrc.json",
           ".env.example", "README.md", "src/index.ts", "README.md", ".gitignore"]
    ∧ ((writePaths ((programSteps pn m).flatten)).map stripDotSlash).contains "src/app.ts" = false
    ∧ ((writePaths ((programSteps pn m).flatten)).map stripDotSlash).filter underSrc
        = ["src/index.ts"] :=
  ⟨rfl, rfl, rfl, rfl⟩

end ProjectInit
